import Mathlib

/-!
Verification of the document-search pipeline of seeker13.py (WYSZUKIWARKACC).

Shallow embedding conventions:
* a Python string is a list of Unicode code points, modelled as List Nat;
* the Unicode data consulted by the program (lower-case mapping, NFKD and NFD
  decompositions, combining classes) is modelled by explicit tables that are
  faithful to the Unicode character database on every code point they mention
  and act as the identity elsewhere;
* a PDF document is the list of per-page extracted texts plus the list of
  per-page OCR-recognized texts; a DOCX document is its paragraph texts plus
  its flattened table-cell texts;
* exceptions caught by the program (corrupt files) are modelled by a dedicated
  file-content constructor; every catch site of the source is mirrored by the
  branch the model takes there.
-/

set_option autoImplicit false

/-- Model of Python str.lower applied per code point (faithful on ASCII and on
the accented letters used below; identity elsewhere, as for the code points
U+00B4, U+00A8 and U+FB01 which have no lower-case mapping). -/
def lowerChar (c : Nat) : Nat :=
  if 65 ≤ c && c ≤ 90 then c + 32
  else if c == 201 then 233
  else c

/-- Unicode compatibility decomposition (NFKD) per code point, faithful on the
code points mentioned: U+00B4 ACUTE ACCENT and U+00A8 DIAERESIS decompose to
SPACE plus a combining mark, U+00E9 and U+00C9 to a base letter plus
U+0301, and the ligature U+FB01 to the letters f i; identity elsewhere. -/
def nfkdChar (c : Nat) : List Nat :=
  if c == 180 then [32, 769]
  else if c == 168 then [32, 776]
  else if c == 233 then [101, 769]
  else if c == 201 then [69, 769]
  else if c == 64257 then [102, 105]
  else [c]

/-- Unicode canonical decomposition (NFD) per code point: canonical
decomposition splits accented letters but, unlike NFKD, leaves compatibility
characters such as U+00B4, U+00A8 and the ligature U+FB01 unchanged. -/
def nfdChar (c : Nat) : List Nat :=
  if c == 233 then [101, 769]
  else if c == 201 then [69, 769]
  else [c]

/-- Model of unicodedata.combining being nonzero: the combining diacritical
marks block U+0300 to U+036F. -/
def combining (c : Nat) : Bool :=
  768 ≤ c && c ≤ 879

/-- Whitespace as stripped by Python str.strip. -/
def isSpaceChar (c : Nat) : Bool :=
  c == 32 || c == 9 || c == 10 || c == 13 || c == 11 || c == 12

/-- Per-character lower-casing extended to strings. -/
def lowerStr (s : List Nat) : List Nat :=
  s.map lowerChar

/-- NFKD normalization extended to strings. -/
def nfkdStr (s : List Nat) : List Nat :=
  (s.map nfkdChar).join

/-- NFD (canonical) normalization extended to strings. -/
def nfdStr (s : List Nat) : List Nat :=
  (s.map nfdChar).join

/-- Removal of all combining marks, the final step of normalize_text. -/
def stripMarks (s : List Nat) : List Nat :=
  s.filter (fun c => !combining c)

/-- Model of Python str.strip. -/
def pyStrip (s : List Nat) : List Nat :=
  ((s.dropWhile isSpaceChar).reverse.dropWhile isSpaceChar).reverse

/-- Model of the Python substring test needle in haystack, scanning every
suffix of the haystack for the needle as a prefix. -/
def containsSub (needle : List Nat) : List Nat → Bool
  | [] => needle.isEmpty
  | c :: rest => needle.isPrefixOf (c :: rest) || containsSub needle rest

/-- seeker13.py lines 104-109, normalize_text: guard on falsy input, then
NFKD of the lower-cased text, then drop combining characters. -/
def normalize_text (s : List Nat) : List Nat :=
  if s.isEmpty then [] else stripMarks (nfkdStr (lowerStr s))

/-- normalize_text lifted to an optional string: Python treats None like the
empty string in the falsy guard of lines 106-107. -/
def normalize_text_opt : Option (List Nat) → List Nat
  | none => []
  | some s => normalize_text s

/-- Modelled from the spec (section 4.1 as quoted by the claim): the
Normalizer pipeline in the order the specification words it, namely Unicode
canonical decomposition, then case-folding to lowercase, then stripping all
combining marks. Compared against normalize_text from the source. -/
def normalizeSpecOrder (s : List Nat) : List Nat :=
  stripMarks (lowerStr (nfdStr s))

/-- A PDF document: the native text of each page as returned by
page.get_text(), and the text OCR would recognize on each rasterized page. -/
structure PdfDoc where
  pages : List (List Nat)
  ocrPages : List (List Nat)
deriving DecidableEq

/-- A DOCX document: paragraph texts in document order and table-cell texts in
table, row, cell order. -/
structure DocxDoc where
  paragraphs : List (List Nat)
  tableCells : List (List Nat)
deriving DecidableEq

/-- Content of a candidate file; corrupt stands for a file whose parser raises
on open (the exception is caught where the source catches it). -/
inductive FileContent where
  | pdf (d : PdfDoc)
  | docx (d : DocxDoc)
  | corrupt
deriving DecidableEq

/-- A file on disk: its name (for extension dispatch) and its content. -/
structure FSFile where
  name : List Nat
  content : FileContent
deriving DecidableEq

/-- The code points of the string .pdf. -/
def extPdf : List Nat := [46, 112, 100, 102]

/-- The code points of the string .docx. -/
def extDocx : List Nat := [46, 100, 111, 99, 120]

/-- seeker13.py lines 132-141, the first pass of search_pdf_file: walk the
pages accumulating has_text_pages; on a page with non-whitespace text, test
containment and return True immediately on a match. Result is the pair
(matched, has_text_pages). -/
def pdfFirstPass (nk : List Nat) : List (List Nat) → Bool → Bool × Bool
  | [], hasText => (false, hasText)
  | t :: rest, hasText =>
    if (pyStrip t).isEmpty then pdfFirstPass nk rest hasText
    else if containsSub nk (normalize_text t) then (true, true)
    else pdfFirstPass nk rest true

/-- seeker13.py lines 154-191, search_pdf_with_ocr: bail out with False when
Tesseract is unavailable, otherwise test each OCR-recognized page text. -/
def search_pdf_with_ocr (tess : Bool) (ocrPages : List (List Nat)) (nk : List Nat) : Bool :=
  if tess then ocrPages.any (fun t => containsSub nk (normalize_text t)) else false

/-- seeker13.py lines 124-148, search_pdf_file, instrumented: the second
component records whether the OCR fallback branch of lines 145-146 was taken. -/
def search_pdf_fileCore (tess : Bool) (d : PdfDoc) (kw : List Nat) (sot : Bool) : Bool × Bool :=
  let nk := normalize_text kw
  let fp := pdfFirstPass nk d.pages false
  if fp.1 then (true, false)
  else if fp.2 || sot then (false, false)
  else (search_pdf_with_ocr tess d.ocrPages nk, true)

/-- seeker13.py lines 124-152, search_pdf_file: the boolean outcome. -/
def search_pdf_file (tess : Bool) (d : PdfDoc) (kw : List Nat) (sot : Bool) : Bool :=
  (search_pdf_fileCore tess d kw sot).1

/-- Whether search_pdf_file reaches the optical-fallback call of line 146. -/
def ocrInvoked (tess : Bool) (d : PdfDoc) (kw : List Nat) (sot : Bool) : Bool :=
  (search_pdf_fileCore tess d kw sot).2

/-- The extractor's native-text-layer predicate: some page yields
non-whitespace text after trimming (the has_text_pages flag of the source). -/
def hasNativeTextLayer (d : PdfDoc) : Bool :=
  d.pages.any (fun t => !(pyStrip t).isEmpty)

/-- seeker13.py lines 193-214, search_docx_file: scan every paragraph, then
every table cell, returning True on the first containment. -/
def search_docx_file (d : DocxDoc) (kw : List Nat) : Bool :=
  let nk := normalize_text kw
  d.paragraphs.any (fun p => containsSub nk (normalize_text p))
    || d.tableCells.any (fun c => containsSub nk (normalize_text c))

/-- Indices, counted from i, of the list entries satisfying p; this is the
shape of the enumerate loops that append matching indices in the source. -/
def idxWhere (p : List Nat → Bool) : Nat → List (List Nat) → List Nat
  | _, [] => []
  | i, t :: rest =>
    if p t then i :: idxWhere p (i + 1) rest else idxWhere p (i + 1) rest

/-- seeker13.py lines 474-513, find_keyword_in_pdf_pages: collect the indices
of non-whitespace pages whose normalized text contains the keyword; when no
page had text and OCR is permitted and Tesseract is present, append the
indices (restarting from zero) of matching OCR page texts. -/
def find_keyword_in_pdf_pages (tess : Bool) (d : PdfDoc) (kw : List Nat) (skipOcr : Bool) : List Nat :=
  let nk := normalize_text kw
  let found := idxWhere
    (fun t => !(pyStrip t).isEmpty && containsSub nk (normalize_text t)) 0 d.pages
  let hasText := d.pages.any (fun t => !(pyStrip t).isEmpty)
  if !hasText && !skipOcr then
    if tess then
      found ++ idxWhere (fun t => containsSub nk (normalize_text t)) 0 d.ocrPages
    else found
  else found

/-- seeker13.py line 462: each found page index p is reported as Strona p+1. -/
def pdfPageReport (tess : Bool) (d : PdfDoc) (kw : List Nat) (skipOcr : Bool) : List Nat :=
  (find_keyword_in_pdf_pages tess d kw skipOcr).map (fun p => p + 1)

/-- seeker13.py lines 515-528, find_keyword_in_docx_paragraphs: indices of the
paragraphs whose normalized text contains the keyword; tables are not read. -/
def find_keyword_in_docx_paragraphs (d : DocxDoc) (kw : List Nat) : List Nat :=
  let nk := normalize_text kw
  idxWhere (fun t => containsSub nk (normalize_text t)) 0 d.paragraphs

/-- seeker13.py lines 111-122, process_single_file: dispatch on the lowered
file name's extension; the catch-all branches returning false model the
try/except blocks of lines 114-122, 126-152 and 195-214 that convert any
exception (a corrupt file, a wrongly parsed container) into a False result. -/
def process_single_file (tess : Bool) (f : FSFile) (kw : List Nat) (sot : Bool) : List Nat × Bool :=
  if extPdf.isSuffixOf (lowerStr f.name) then
    (f.name, match f.content with
      | FileContent.pdf d => search_pdf_file tess d kw sot
      | _ => false)
  else if extDocx.isSuffixOf (lowerStr f.name) then
    (f.name, match f.content with
      | FileContent.docx d => search_docx_file d kw
      | _ => false)
  else (f.name, false)

/-- Whether processing the file reaches the optical fallback: only possible
through the PDF branch of process_single_file. -/
def processOcrInvoked (tess : Bool) (f : FSFile) (kw : List Nat) (sot : Bool) : Bool :=
  if extPdf.isSuffixOf (lowerStr f.name) then
    match f.content with
    | FileContent.pdf d => ocrInvoked tess d kw sot
    | _ => false
  else false

/-- seeker13.py line 237: a walked file is a candidate when its lowered name
ends with .pdf or .docx. -/
def isCandidateName (n : List Nat) : Bool :=
  extPdf.isSuffixOf (lowerStr n) || extDocx.isSuffixOf (lowerStr n)

/-- seeker13.py lines 234-238: the candidate list collected before dispatch. -/
def candidateFiles (files : List FSFile) : List FSFile :=
  files.filter (fun f => isCandidateName f.name)

/-- The summary carried by the finished signal of the worker:
(results, total, skipped) of seeker13.py line 276. -/
structure AggregateResult where
  results : List (List Nat)
  total : Nat
  skipped : Nat
deriving DecidableEq

/-- seeker13.py lines 232-276, OptimizedFolderSearchWorker.run, aggregate
view: every candidate is processed exactly once; a path is appended to
results when its task reports found; skipped is only incremented in the
except branch of lines 271-274, which is unreachable because
process_single_file already catches every exception, so it stays zero. -/
def runWorkerAgg (tess : Bool) (files : List FSFile) (kw : List Nat) (sot : Bool) : AggregateResult :=
  let cands := candidateFiles files
  { results := cands.filterMap (fun f =>
      let r := process_single_file tess f kw sot
      if r.2 then some r.1 else none)
    total := cands.length
    skipped := 0 }

/-- The number of candidates whose task completes without a match. -/
def unmatchedCount (tess : Bool) (files : List FSFile) (kw : List Nat) (sot : Bool) : Nat :=
  (candidateFiles files).countP (fun f => !(process_single_file tess f kw sot).2)

/-- The signals the folder worker emits, in emission order. -/
inductive WorkerEvent where
  | fileProcessed (path : List Nat)
  | progress (percent : Nat)
  | finished (results : List (List Nat)) (total : Nat) (skipped : Nat)
deriving DecidableEq

/-- Whether an event is the terminal finished signal. -/
def isFinishedEv : WorkerEvent → Bool
  | WorkerEvent.finished _ _ _ => true
  | _ => false

/-- seeker13.py lines 259-274: the per-file events of the run; file_processed
is emitted only for found files (line 265), then the integer progress
percentage of line 268. -/
def workerFileEvents (tess : Bool) (kw : List Nat) (sot : Bool) (total : Nat) :
    List FSFile → Nat → List WorkerEvent
  | [], _ => []
  | f :: rest, done =>
    (if (process_single_file tess f kw sot).2
      then [WorkerEvent.fileProcessed (process_single_file tess f kw sot).1] else [])
      ++ WorkerEvent.progress ((done + 1) * 100 / total)
      :: workerFileEvents tess kw sot total rest (done + 1)

/-- The events preceding the finished signal in a run to completion. -/
def workerPreEvents (tess : Bool) (files : List FSFile) (kw : List Nat) (sot : Bool) : List WorkerEvent :=
  workerFileEvents tess kw sot (candidateFiles files).length (candidateFiles files) 0

/-- seeker13.py lines 232-276: the full event trace of an uncancelled run,
including the early finished of line 242 for an empty candidate list. -/
def runWorkerEvents (tess : Bool) (files : List FSFile) (kw : List Nat) (sot : Bool) : List WorkerEvent :=
  if (candidateFiles files).length = 0 then [WorkerEvent.finished [] 0 0]
  else
    workerPreEvents tess files kw sot
      ++ [WorkerEvent.finished (runWorkerAgg tess files kw sot).results
            (runWorkerAgg tess files kw sot).total (runWorkerAgg tess files kw sot).skipped]

/-- seeker13.py lines 535-543, stop_search: the worker thread is killed with
terminate() at an arbitrary point before completion, so the observable trace
is a prefix of the pre-finished events; the finished signal of line 276 is
never reached. The cancellation point m counts the events already emitted. -/
def runWorkerCancelled (tess : Bool) (files : List FSFile) (kw : List Nat) (sot : Bool) (m : Nat) : List WorkerEvent :=
  (workerPreEvents tess files kw sot).take m

/-! ### Concrete documents and files used as test vectors -/

/-- The string hello. -/
def strHello : List Nat := [104, 101, 108, 108, 111]

/-- A page whose extracted text is two spaces, whitespace only. -/
def strWS : List Nat := [32, 32]

/-- The string total. -/
def strTotal : List Nat := [116, 111, 116, 97, 108]

/-- The string Total Due. -/
def strTotalDue : List Nat := [84, 111, 116, 97, 108, 32, 68, 117, 101]

/-- The string invoice. -/
def strInvoice : List Nat := [105, 110, 118, 111, 105, 99, 101]

/-- The string abc. -/
def strABC : List Nat := [97, 98, 99]

/-- A keyword consisting of the single code point U+00B4 ACUTE ACCENT; it is
non-empty after trimming, and its normalization is the single space, because
NFKD decomposes U+00B4 into SPACE plus COMBINING ACUTE. -/
def kwAcc : List Nat := [180]

/-- A keyword consisting of U+00A8 DIAERESIS, likewise normalizing to SPACE. -/
def kwDia : List Nat := [168]

/-- The string holding only the ligature U+FB01. -/
def strLig : List Nat := [64257]

/-- A PDF with a native text layer on page 0 and a whitespace-only page 1. -/
def pdWhite : PdfDoc := { pages := [strHello, strWS], ocrPages := [] }

/-- A PDF whose page 0 is whitespace-only and page 1 carries native text. -/
def pdBlank0 : PdfDoc := { pages := [strWS, strHello], ocrPages := [] }

/-- A scanned PDF: one page of empty extracted text, whose rasterized image
OCR reads as Total Due. -/
def pdScan : PdfDoc := { pages := [[]], ocrPages := [strTotalDue] }

/-- A native-text PDF that does not contain the keyword total. -/
def pdPlain : PdfDoc := { pages := [strInvoice], ocrPages := [] }

/-- A one-page native-text PDF containing the keyword total. -/
def pdMatch : PdfDoc := { pages := [strTotal], ocrPages := [] }

/-- A five-page native-text PDF in which only pages 1 and 3 (zero-based)
contain the keyword total. -/
def pdFive : PdfDoc :=
  { pages := [strInvoice, strTotalDue, strHello, strTotal, strABC], ocrPages := [] }

/-- A DOCX whose only occurrence of the keyword total is inside a table cell. -/
def dxTable : DocxDoc := { paragraphs := [strHello], tableCells := [strTotal] }

/-- A DOCX with a single paragraph that does not contain the keyword total. -/
def dxPara : DocxDoc := { paragraphs := [strHello], tableCells := [] }

/-- The file name a.pdf. -/
def nameA : List Nat := [97, 46, 112, 100, 102]

/-- The file name bad.pdf. -/
def nameBad : List Nat := [98, 97, 100, 46, 112, 100, 102]

/-- The file name c.docx. -/
def nameC : List Nat := [99, 46, 100, 111, 99, 120]

/-- The file name d.txt. -/
def nameTxt : List Nat := [100, 46, 116, 120, 116]

/-- The file name A.PDF. -/
def nameUpper : List Nat := [65, 46, 80, 68, 70]

/-- The file name b.DocX. -/
def nameMixed : List Nat := [98, 46, 68, 111, 99, 88]

/-- A matching candidate file. -/
def fMatch : FSFile := { name := nameA, content := FileContent.pdf pdMatch }

/-- A corrupt candidate file: its parser raises on open. -/
def fBad : FSFile := { name := nameBad, content := FileContent.corrupt }

/-- A readable candidate file without the keyword. -/
def fNoMatch : FSFile := { name := nameC, content := FileContent.docx dxPara }

/-- A folder with one matching, one corrupt and one unmatched candidate. -/
def filesC2 : List FSFile := [fMatch, fBad, fNoMatch]

/-- A folder with two candidates, the first matching. -/
def filesC7 : List FSFile := [fMatch, fNoMatch]

/-- An upper-cased candidate file. -/
def fUpper : FSFile := { name := nameUpper, content := FileContent.pdf pdMatch }

/-- A mixed-case DOCX candidate file. -/
def fMixed : FSFile := { name := nameMixed, content := FileContent.docx dxPara }

/-- A file with an unsupported extension. -/
def fTxt : FSFile := { name := nameTxt, content := FileContent.corrupt }

/-- A directory listing mixing supported and unsupported extensions. -/
def demoFiles : List FSFile := [fUpper, fMixed, fTxt]

/-! ### Structural lemmas about the embedded functions -/

/-- The first pass of search_pdf_file reports a match exactly when some page
has non-whitespace text whose normalization contains the keyword. -/
theorem pdfFirstPass_fst (nk : List Nat) :
    ∀ (l : List (List Nat)) (acc : Bool),
      (pdfFirstPass nk l acc).1
        = l.any (fun t => !(pyStrip t).isEmpty && containsSub nk (normalize_text t)) := by
  intro l
  induction l with
  | nil => intro acc; rfl
  | cons t rest ih =>
    intro acc
    by_cases hs : (pyStrip t).isEmpty
    · simp [pdfFirstPass, hs, ih]
    · by_cases hm : containsSub nk (normalize_text t)
      · simp [pdfFirstPass, hs, hm]
      · simp [pdfFirstPass, hs, hm, ih]

/-- The has_text_pages flag computed by the first pass is the accumulator
joined with the native-text-layer test over the pages. -/
theorem pdfFirstPass_snd (nk : List Nat) :
    ∀ (l : List (List Nat)) (acc : Bool),
      (pdfFirstPass nk l acc).2 = (acc || l.any (fun t => !(pyStrip t).isEmpty)) := by
  intro l
  induction l with
  | nil => intro acc; simp [pdfFirstPass]
  | cons t rest ih =>
    intro acc
    by_cases hs : (pyStrip t).isEmpty
    · simp [pdfFirstPass, hs, ih]
    · by_cases hm : containsSub nk (normalize_text t)
      · simp [pdfFirstPass, hs, hm]
      · simp [pdfFirstPass, hs, hm, ih]

/-- Membership in an idxWhere scan started at offset i. -/
theorem idxWhere_mem (p : List Nat → Bool) :
    ∀ (l : List (List Nat)) (i j : Nat),
      j ∈ idxWhere p i l
        ↔ i ≤ j ∧ ∃ t, l.get? (j - i) = some t ∧ p t = true := by
  intro l
  induction l with
  | nil =>
    intro i j
    simp [idxWhere, List.get?]
  | cons t rest ih =>
    intro i j
    by_cases hp : p t
    · simp only [idxWhere, hp, if_pos, List.mem_cons]
      constructor
      · rintro (rfl | hj)
        · exact ⟨Nat.le_refl j, t, by simp [List.get?], hp⟩
        · obtain ⟨hij, u, hu, hpu⟩ := (ih (i + 1) j).mp hj
          refine ⟨Nat.le_of_succ_le hij, u, ?_, hpu⟩
          have hji : j - i = (j - (i + 1)) + 1 := by omega
          rw [hji]
          simpa [List.get?] using hu
      · rintro ⟨hij, u, hu, hpu⟩
        rcases Nat.eq_or_lt_of_le hij with rfl | hlt
        · left; rfl
        · right
          refine (ih (i + 1) j).mpr ⟨hlt, u, ?_, hpu⟩
          have hji : j - i = (j - (i + 1)) + 1 := by omega
          rw [hji] at hu
          simpa [List.get?] using hu
    · simp only [idxWhere, hp, if_neg, Bool.false_eq_true, not_false_iff]
      rw [ih (i + 1) j]
      constructor
      · rintro ⟨hij, u, hu, hpu⟩
        refine ⟨Nat.le_of_succ_le hij, u, ?_, hpu⟩
        have hji : j - i = (j - (i + 1)) + 1 := by omega
        rw [hji]
        simpa [List.get?] using hu
      · rintro ⟨hij, u, hu, hpu⟩
        rcases Nat.eq_or_lt_of_le hij with rfl | hlt
        · rw [Nat.sub_self] at hu
          simp only [List.get?] at hu
          cases hu
          exact absurd hpu (by simp [hp])
        · refine ⟨hlt, u, ?_, hpu⟩
          have hji : j - i = (j - (i + 1)) + 1 := by omega
          rw [hji] at hu
          simpa [List.get?] using hu

/-- Every index produced by idxWhere is at least the starting offset. -/
theorem idxWhere_ge (p : List Nat → Bool) :
    ∀ (l : List (List Nat)) (i j : Nat), j ∈ idxWhere p i l → i ≤ j := by
  intro l
  induction l with
  | nil => intro i j h; simp [idxWhere] at h
  | cons t rest ih =>
    intro i j h
    by_cases hp : p t
    · simp only [idxWhere, hp, if_pos, List.mem_cons] at h
      rcases h with rfl | h
      · exact Nat.le_refl j
      · exact Nat.le_of_succ_le (ih (i + 1) j h)
    · simp only [idxWhere, hp, if_neg, Bool.false_eq_true, not_false_iff] at h
      exact Nat.le_of_succ_le (ih (i + 1) j h)

/-- The indices produced by idxWhere are strictly increasing. -/
theorem idxWhere_pairwise (p : List Nat → Bool) :
    ∀ (l : List (List Nat)) (i : Nat),
      List.Pairwise (fun a b => a < b) (idxWhere p i l) := by
  intro l
  induction l with
  | nil => intro i; simp [idxWhere]
  | cons t rest ih =>
    intro i
    by_cases hp : p t
    · simp only [idxWhere, hp, if_pos]
      exact List.Pairwise.cons
        (fun j hj => Nat.lt_of_succ_le (idxWhere_ge p rest (i + 1) j hj)) (ih (i + 1))
    · simp only [idxWhere, hp, if_neg, Bool.false_eq_true, not_false_iff]
      exact ih (i + 1)

/-- idxWhere over a list on which the predicate never holds is empty. -/
theorem idxWhere_nil (p : List Nat → Bool) :
    ∀ (l : List (List Nat)) (i : Nat), (∀ t ∈ l, p t = false) → idxWhere p i l = [] := by
  intro l
  induction l with
  | nil => intro i _; rfl
  | cons t rest ih =>
    intro i h
    have ht : p t = false := h t (List.mem_cons_self t rest)
    simp only [idxWhere, ht, Bool.false_eq_true, if_neg, not_false_iff]
    exact ih (i + 1) (fun u hu => h u (List.mem_cons_of_mem t hu))

/-- A corrupt file's task always reports no match: the exception raised by
the parser is caught and converted to False. -/
theorem process_single_file_corrupt (tess : Bool) (f : FSFile) (kw : List Nat) (sot : Bool)
    (hc : f.content = FileContent.corrupt) :
    (process_single_file tess f kw sot).2 = false := by
  unfold process_single_file
  by_cases h1 : extPdf.isSuffixOf (lowerStr f.name)
  · simp only [h1, if_pos, hc]
  · by_cases h2 : extDocx.isSuffixOf (lowerStr f.name)
    · simp only [h1, h2, Bool.false_eq_true, if_neg, if_pos, hc, not_false_iff]
    · simp only [h1, h2, Bool.false_eq_true, if_neg, not_false_iff]

/-- The length of the matched-paths list is the number of candidates whose
task reports found. -/
theorem filterMapIf_length {α : Type} (q : α → Bool) (g : α → List Nat) :
    ∀ l : List α,
      (l.filterMap (fun a => if q a then some (g a) else none)).length = l.countP q := by
  intro l
  induction l with
  | nil => rfl
  | cons a l ih =>
    by_cases hq : q a
    · simp [List.filterMap_cons, hq, ih, List.countP_cons]
    · simp [List.filterMap_cons, hq, ih, List.countP_cons]

/-- The per-file event stream never contains a finished signal. -/
theorem workerFileEvents_no_finished (tess : Bool) (kw : List Nat) (sot : Bool) (total : Nat) :
    ∀ (l : List FSFile) (done : Nat) (e : WorkerEvent),
      e ∈ workerFileEvents tess kw sot total l done → isFinishedEv e = false := by
  intro l
  induction l with
  | nil => intro done e h; simp [workerFileEvents] at h
  | cons f rest ih =>
    intro done e h
    by_cases hf : (process_single_file tess f kw sot).2
    · simp only [workerFileEvents, hf, if_pos, List.cons_append, List.nil_append,
        List.mem_cons] at h
      rcases h with rfl | rfl | h
      · rfl
      · rfl
      · exact ih (done + 1) e h
    · simp only [workerFileEvents, hf, Bool.false_eq_true, if_neg, not_false_iff,
        List.nil_append, List.mem_cons] at h
      rcases h with rfl | h
      · rfl
      · exact ih (done + 1) e h

/-- On a document with a native text layer, search_pdf_file reduces to the
first-pass scan: the OCR branch is never reached. -/
theorem search_pdf_file_native (tess : Bool) (d : PdfDoc) (kw : List Nat) (sot : Bool)
    (h : hasNativeTextLayer d = true) :
    search_pdf_file tess d kw sot
      = d.pages.any
          (fun t => !(pyStrip t).isEmpty && containsSub (normalize_text kw) (normalize_text t)) := by
  unfold hasNativeTextLayer at h
  simp only [search_pdf_file, search_pdf_fileCore, pdfFirstPass_fst, pdfFirstPass_snd, h,
    Bool.false_or, Bool.true_or]
  cases hm : d.pages.any
      (fun t => !(pyStrip t).isEmpty && containsSub (normalize_text kw) (normalize_text t)) <;>
    simp [hm]

/-- Splitting a list's length by a boolean predicate. -/
theorem countP_split {α : Type} (q : α → Bool) :
    ∀ l : List α, l.length = l.countP q + l.countP (fun a => !q a) := by
  intro l
  induction l with
  | nil => rfl
  | cons a l ih =>
    by_cases hq : q a <;> simp [List.countP_cons, hq, ih] <;> omega

/-! ### The claims -/

/-- C1: for a PDF with a native text layer, search_pdf_file reports a match
exactly when some page with non-whitespace raw text has the normalized keyword
as a substring of its normalized text (whitespace-only pages are skipped by
the scan); for a DOCX, exactly when some paragraph or table cell does. This is
the amended form of the claim: the original, quantified over all pages,
fails on whitespace-only pages. -/
theorem c1_native_match_iff (tess : Bool) (pd : PdfDoc) (dd : DocxDoc)
    (kw : List Nat) (sot : Bool) (h : hasNativeTextLayer pd = true) :
    (search_pdf_file tess pd kw sot = true ↔
      ∃ t ∈ pd.pages, (pyStrip t).isEmpty = false ∧
        containsSub (normalize_text kw) (normalize_text t) = true) ∧
    (search_docx_file dd kw = true ↔
      ∃ t ∈ dd.paragraphs ++ dd.tableCells,
        containsSub (normalize_text kw) (normalize_text t) = true) := by
  constructor
  · rw [search_pdf_file_native tess pd kw sot h]
    simp only [List.any_eq_true, Bool.and_eq_true, Bool.not_eq_true']
  · unfold search_docx_file
    simp only [Bool.or_eq_true, List.any_eq_true, List.mem_append]
    constructor
    · rintro (⟨t, ht, hc⟩ | ⟨t, ht, hc⟩)
      · exact ⟨t, Or.inl ht, hc⟩
      · exact ⟨t, Or.inr ht, hc⟩
    · rintro ⟨t, ht | ht, hc⟩
      · exact Or.inl ⟨t, ht, hc⟩
      · exact Or.inr ⟨t, ht, hc⟩

/-- C1 witness: the iff instantiated at a concrete native-text document. -/
theorem c1_witness :
    hasNativeTextLayer pdMatch = true ∧
    (search_pdf_file true pdMatch strTotal false = true ↔
      ∃ t ∈ pdMatch.pages, (pyStrip t).isEmpty = false ∧
        containsSub (normalize_text strTotal) (normalize_text t) = true) :=
  ⟨by decide, (c1_native_match_iff true pdMatch dxTable strTotal false (by decide)).1⟩

/-- C1 counterexample: pdWhite has a native text layer, its page strWS is a
unit whose normalized text contains the normalized keyword kwAcc (U+00B4
normalizes to a single space), yet search_pdf_file reports no match, because
the scan of lines 132-141 never tests pages whose raw text is whitespace
only: a false negative on a native-text document. -/
theorem c1_counterexample :
    hasNativeTextLayer pdWhite = true ∧
    strWS ∈ pdWhite.pages ∧
    containsSub (normalize_text kwAcc) (normalize_text strWS) = true ∧
    search_pdf_file true pdWhite kwAcc false = false := by decide

/-- C3: normalize_text lower-cases its input, applies Unicode compatibility
(NFKD) decomposition and strips all combining marks; empty or null input
yields the empty result. Amended from the claim: the code applies NFKD, not
canonical decomposition, and lower-cases before decomposing. -/
theorem c3_normalize_pipeline (t : Option (List Nat)) :
    normalize_text_opt t = stripMarks (nfkdStr (lowerStr (t.getD []))) ∧
    normalize_text_opt none = [] ∧ normalize_text [] = [] := by
  refine ⟨?_, rfl, rfl⟩
  cases t with
  | none => rfl
  | some s =>
    cases s with
    | nil => rfl
    | cons c cs => rfl

/-- C3 counterexample: on the ligature U+FB01 the code's normalization (NFKD
after lower-casing) yields the letters f i, while the claimed pipeline built
from canonical decomposition leaves the ligature unchanged. -/
theorem c3_counterexample :
    normalize_text strLig ≠ normalizeSpecOrder strLig ∧
    normalize_text strLig = [102, 105] ∧ normalizeSpecOrder strLig = [64257] := by decide

/-- C4: in folder mode the searchable DOCX units are every paragraph plus
every table cell, but in single-file mode find_keyword_in_docx_paragraphs
searches only paragraphs. Amended from the claim, which asserted table cells
are searched in both modes. -/
theorem c4_docx_units (d : DocxDoc) (kw : List Nat) :
    (search_docx_file d kw = true ↔
      ∃ t ∈ d.paragraphs ++ d.tableCells,
        containsSub (normalize_text kw) (normalize_text t) = true) ∧
    (∀ j : Nat, j ∈ find_keyword_in_docx_paragraphs d kw ↔
      ∃ t, d.paragraphs.get? j = some t ∧
        containsSub (normalize_text kw) (normalize_text t) = true) := by
  constructor
  · unfold search_docx_file
    simp only [Bool.or_eq_true, List.any_eq_true, List.mem_append]
    constructor
    · rintro (⟨t, ht, hc⟩ | ⟨t, ht, hc⟩)
      · exact ⟨t, Or.inl ht, hc⟩
      · exact ⟨t, Or.inr ht, hc⟩
    · rintro ⟨t, ht | ht, hc⟩
      · exact Or.inl ⟨t, ht, hc⟩
      · exact Or.inr ⟨t, ht, hc⟩
  · intro j
    show j ∈ idxWhere
        (fun t => containsSub (normalize_text kw) (normalize_text t)) 0 d.paragraphs ↔ _
    rw [idxWhere_mem]
    simp

/-- C4 counterexample: a keyword occurring only inside a table cell is found
by the folder-mode search but missed by the single-file search, which
returns no paragraph index at all. -/
theorem c4_counterexample :
    search_docx_file dxTable strTotal = true ∧
    find_keyword_in_docx_paragraphs dxTable strTotal = [] := by decide

/-- C5: the optical fallback branch of search_pdf_file is reached exactly
when the document has no native text layer and native-text-only search was
not requested; and processing a file can only reach the fallback through the
PDF branch, so DOCX documents never trigger it. -/
theorem c5_ocr_condition (tess : Bool) (d : PdfDoc) (kw : List Nat) (sot : Bool) (f : FSFile) :
    (ocrInvoked tess d kw sot = true ↔ hasNativeTextLayer d = false ∧ sot = false) ∧
    (processOcrInvoked tess f kw sot = true → extPdf.isSuffixOf (lowerStr f.name) = true) := by
  constructor
  · unfold ocrInvoked search_pdf_fileCore hasNativeTextLayer
    simp only [pdfFirstPass_fst, pdfFirstPass_snd, Bool.false_or]
    cases hm : d.pages.any
        (fun t => !(pyStrip t).isEmpty && containsSub (normalize_text kw) (normalize_text t)) with
    | true =>
      have hT : d.pages.any (fun t => !(pyStrip t).isEmpty) = true := by
        rcases List.any_eq_true.mp hm with ⟨t, ht, hp⟩
        exact List.any_eq_true.mpr ⟨t, ht, (Bool.and_eq_true _ _).mp hp |>.1⟩
      simp [hT]
    | false =>
      cases hT : d.pages.any (fun t => !(pyStrip t).isEmpty) with
      | true => simp [hT]
      | false => cases sot <;> simp
  · unfold processOcrInvoked
    by_cases h1 : extPdf.isSuffixOf (lowerStr f.name) <;> simp [h1]

/-- C5 witness: on a scanned document without native text and with fallback
permitted, the fallback branch is reached. -/
theorem c5_witness : ocrInvoked true pdScan strTotal false = true :=
  (c5_ocr_condition true pdScan strTotal false fMatch).1.mpr ⟨by decide, rfl⟩

/-- C6: when the optical fallback is required (no native text layer, fallback
not disabled) but Tesseract is unavailable, both search paths return exactly
the no-match outcome: False in folder mode and the empty locator list in
single-file mode. Amended from the claim: the outcome is not distinct from
no-match; the code only logs to the console (plus a startup dialog). -/
theorem c6_unavailable_is_no_match (d : PdfDoc) (kw : List Nat)
    (h : hasNativeTextLayer d = false) :
    search_pdf_file false d kw false = false ∧
    find_keyword_in_pdf_pages false d kw false = [] := by
  unfold hasNativeTextLayer at h
  have hall := List.any_eq_false.mp h
  have h1 : d.pages.any
      (fun t => !(pyStrip t).isEmpty && containsSub (normalize_text kw) (normalize_text t))
        = false := by
    refine List.any_eq_false.mpr ?_
    intro t ht hcontra
    exact hall t ht ((Bool.and_eq_true _ _).mp hcontra).1
  have hfound : idxWhere
      (fun t => !(pyStrip t).isEmpty && containsSub (normalize_text kw) (normalize_text t))
        0 d.pages = [] := by
    apply idxWhere_nil
    intro t ht
    have hb := hall t ht
    rw [Bool.not_eq_true] at hb
    simp [hb]
  constructor
  · unfold search_pdf_file search_pdf_fileCore
    simp [pdfFirstPass_fst, pdfFirstPass_snd, h1, h, search_pdf_with_ocr]
  · unfold find_keyword_in_pdf_pages
    simp [h, hfound]

/-- C6 witness: the equalities instantiated at a concrete scanned document. -/
theorem c6_witness :
    search_pdf_file false pdScan strABC false = false ∧
    find_keyword_in_pdf_pages false pdScan strABC false = [] :=
  c6_unavailable_is_no_match pdScan strABC (by decide)

/-- C6 counterexample: the scanned document pdScan contains the keyword (the
search succeeds when the engine is available), yet with the engine
unavailable the reported outcome is False, the very same value returned for
pdPlain, a native-text document that genuinely lacks the keyword: the
configuration failure is indistinguishable from a no-match, a silent false
negative. -/
theorem c6_counterexample :
    search_pdf_file true pdScan strTotal false = true ∧
    search_pdf_file false pdScan strTotal false = false ∧
    search_pdf_file false pdPlain strTotal false = false := by decide

/-- C2: a corrupt candidate is isolated: the batch is not aborted, the total
counts it, and every other candidate is classified exactly as it would be
without it; but its exception is caught inside the task and converted to an
unmatched (False) result, so skippedCount stays 0 and the unmatched count
absorbs the file. Amended from the claim, which asserted the file is counted
in skippedCount. -/
theorem c2_corrupt_isolated (tess : Bool) (pre post : List FSFile) (c : FSFile)
    (kw : List Nat) (sot : Bool)
    (hc : c.content = FileContent.corrupt)
    (hcand : isCandidateName c.name = true) :
    (runWorkerAgg tess (pre ++ c :: post) kw sot).total
        = (runWorkerAgg tess (pre ++ post) kw sot).total + 1 ∧
    (runWorkerAgg tess (pre ++ c :: post) kw sot).skipped = 0 ∧
    (runWorkerAgg tess (pre ++ c :: post) kw sot).results
        = (runWorkerAgg tess (pre ++ post) kw sot).results ∧
    unmatchedCount tess (pre ++ c :: post) kw sot
        = unmatchedCount tess (pre ++ post) kw sot + 1 := by
  have hcf : candidateFiles (pre ++ c :: post)
      = candidateFiles pre ++ c :: candidateFiles post := by
    unfold candidateFiles
    rw [List.filter_append, List.filter_cons]
    simp [hcand]
  have hcf0 : candidateFiles (pre ++ post)
      = candidateFiles pre ++ candidateFiles post := by
    unfold candidateFiles
    rw [List.filter_append]
  have hproc : (process_single_file tess c kw sot).2 = false :=
    process_single_file_corrupt tess c kw sot hc
  refine ⟨?_, rfl, ?_, ?_⟩
  · simp only [runWorkerAgg, hcf, hcf0, List.length_append, List.length_cons]
    omega
  · simp only [runWorkerAgg, hcf, hcf0, List.filterMap_append, List.filterMap_cons, hproc]
    simp
  · simp only [unmatchedCount, hcf, hcf0, List.countP_append, List.countP_cons, hproc]
    simp
    omega

/-- C2 witness: the isolation properties at a concrete three-file folder. -/
theorem c2_witness :
    (runWorkerAgg true ([fMatch] ++ fBad :: [fNoMatch]) strTotal false).total
        = (runWorkerAgg true ([fMatch] ++ [fNoMatch]) strTotal false).total + 1 ∧
    (runWorkerAgg true ([fMatch] ++ fBad :: [fNoMatch]) strTotal false).skipped = 0 ∧
    (runWorkerAgg true ([fMatch] ++ fBad :: [fNoMatch]) strTotal false).results
        = (runWorkerAgg true ([fMatch] ++ [fNoMatch]) strTotal false).results ∧
    unmatchedCount true ([fMatch] ++ fBad :: [fNoMatch]) strTotal false
        = unmatchedCount true ([fMatch] ++ [fNoMatch]) strTotal false + 1 :=
  c2_corrupt_isolated true [fMatch] [fNoMatch] fBad strTotal false (by decide) (by decide)

/-- C2 counterexample: a folder with three candidates, one corrupt: the total
is 3 and the others are classified correctly, but skippedCount is 0, not 1
as the claim requires, because process_single_file catches the exception and
reports the corrupt file as unmatched. -/
theorem c2_counterexample :
    (runWorkerAgg true filesC2 strTotal false).total = 3 ∧
    (runWorkerAgg true filesC2 strTotal false).skipped = 0 ∧
    (runWorkerAgg true filesC2 strTotal false).results = [nameA] := by decide

/-- C7: cancelling mid-run emits no further events beyond the prefix already
emitted, and that prefix never contains the finished signal: no terminal
AggregateResult is delivered at all. Amended from the claim, which asserted a
terminal AggregateResult with partial counts is produced; stop_search kills
the worker thread with terminate() before line 276 can emit finished. -/
theorem c7_cancel_no_terminal (tess : Bool) (files : List FSFile) (kw : List Nat)
    (sot : Bool) (m : Nat) :
    (∀ e ∈ runWorkerCancelled tess files kw sot m, isFinishedEv e = false) ∧
    runWorkerCancelled tess files kw sot m <+: workerPreEvents tess files kw sot := by
  constructor
  · intro e he
    have hmem : e ∈ workerPreEvents tess files kw sot :=
      (List.take_prefix m (workerPreEvents tess files kw sot)).subset he
    exact workerFileEvents_no_finished tess kw sot
      (candidateFiles files).length (candidateFiles files) 0 e hmem
  · exact List.take_prefix m (workerPreEvents tess files kw sot)

/-- C7 witness: the cancelled-trace properties at a concrete two-file run
stopped after the first file. -/
theorem c7_witness :
    isFinishedEv (WorkerEvent.fileProcessed nameA) = false ∧
    runWorkerCancelled true filesC7 strTotal false 2
      <+: workerPreEvents true filesC7 strTotal false :=
  ⟨(c7_cancel_no_terminal true filesC7 strTotal false 2).1
      (WorkerEvent.fileProcessed nameA) (by decide),
   (c7_cancel_no_terminal true filesC7 strTotal false 2).2⟩

/-- C7 counterexample: cancelling a two-candidate run after one file leaves
the trace with one file event and one progress event and no finished event,
so no terminal AggregateResult reflecting the completed work is produced,
while the uncancelled run does end in a finished signal. -/
theorem c7_counterexample :
    runWorkerCancelled true filesC7 strTotal false 2
      = [WorkerEvent.fileProcessed nameA, WorkerEvent.progress 50] ∧
    (∀ e ∈ runWorkerCancelled true filesC7 strTotal false 2, isFinishedEv e = false) ∧
    runWorkerEvents true filesC7 strTotal false
      = [WorkerEvent.fileProcessed nameA, WorkerEvent.progress 50, WorkerEvent.progress 100,
         WorkerEvent.finished [nameA] 2 0] := by decide

/-- C8: on a PDF with a native text layer the single-file search returns, in
strictly increasing document order, exactly the zero-based indices of the
pages with non-whitespace raw text whose normalized text contains the
normalized keyword, and the user-facing report adds one to each index.
Amended from the claim: pages whose raw text is whitespace only are excluded
from the scan. -/
theorem c8_pdf_locators (tess : Bool) (d : PdfDoc) (kw : List Nat) (sot : Bool)
    (h : hasNativeTextLayer d = true) :
    (∀ j : Nat, j ∈ find_keyword_in_pdf_pages tess d kw sot ↔
      ∃ t, d.pages.get? j = some t ∧ (pyStrip t).isEmpty = false ∧
        containsSub (normalize_text kw) (normalize_text t) = true) ∧
    List.Pairwise (fun a b => a < b) (find_keyword_in_pdf_pages tess d kw sot) ∧
    pdfPageReport tess d kw sot
      = (find_keyword_in_pdf_pages tess d kw sot).map (fun p => p + 1) := by
  unfold hasNativeTextLayer at h
  have hfind : find_keyword_in_pdf_pages tess d kw sot
      = idxWhere
          (fun t => !(pyStrip t).isEmpty && containsSub (normalize_text kw) (normalize_text t))
          0 d.pages := by
    unfold find_keyword_in_pdf_pages
    simp [h]
  refine ⟨?_, ?_, rfl⟩
  · intro j
    rw [hfind, idxWhere_mem]
    simp only [Nat.zero_le, Nat.sub_zero, true_and, Bool.and_eq_true, Bool.not_eq_true']
  · rw [hfind]
    exact idxWhere_pairwise _ _ _

/-- C8 witness: the concrete five-page scenario of the claim: only zero-based
pages 1 and 3 contain the keyword, the locators are exactly that list, the
report is one-based, and the order property follows from the theorem. -/
theorem c8_witness :
    hasNativeTextLayer pdFive = true ∧
    find_keyword_in_pdf_pages true pdFive strTotal false = [1, 3] ∧
    pdfPageReport true pdFive strTotal false = [2, 4] ∧
    List.Pairwise (fun a b => a < b) (find_keyword_in_pdf_pages true pdFive strTotal false) :=
  ⟨by decide, by decide, by decide,
   (c8_pdf_locators true pdFive strTotal false (by decide)).2.1⟩

/-- C8 counterexample: page 0 of pdBlank0 is a unit whose normalized text
contains the normalized keyword kwDia (which normalizes to a space), yet the
single-file search returns the empty locator list, because whitespace-only
pages are never tested. -/
theorem c8_counterexample :
    containsSub (normalize_text kwDia) (normalize_text strWS) = true ∧
    pdBlank0.pages.get? 0 = some strWS ∧
    find_keyword_in_pdf_pages true pdBlank0 kwDia false = [] := by decide

/-- C9: at finalization, totalCandidates equals matchedCount plus
unmatchedCount plus skippedCount: every candidate contributes exactly one
outcome. -/
theorem c9_outcome_conservation (tess : Bool) (files : List FSFile) (kw : List Nat) (sot : Bool) :
    (runWorkerAgg tess files kw sot).total
      = (runWorkerAgg tess files kw sot).results.length
        + unmatchedCount tess files kw sot
        + (runWorkerAgg tess files kw sot).skipped := by
  unfold runWorkerAgg unmatchedCount
  simp only
  rw [filterMapIf_length (fun f => (process_single_file tess f kw sot).2)
    (fun f => (process_single_file tess f kw sot).1)]
  rw [Nat.add_zero]
  exact countP_split _ _

/-- C10: a walked file is a candidate, and is counted in totalCandidates,
exactly when its lower-cased name ends with .pdf or .docx. -/
theorem c10_candidate_enumeration (tess : Bool) (files : List FSFile) (kw : List Nat)
    (sot : Bool) (f : FSFile) :
    (f ∈ candidateFiles files ↔
      f ∈ files ∧ (extPdf.isSuffixOf (lowerStr f.name) = true
        ∨ extDocx.isSuffixOf (lowerStr f.name) = true)) ∧
    (runWorkerAgg tess files kw sot).total = (candidateFiles files).length := by
  constructor
  · unfold candidateFiles
    rw [List.mem_filter]
    unfold isCandidateName
    simp [Bool.or_eq_true]
  · rfl

/-- C10 witness: A.PDF and b.DocX are enumerated, d.txt is not. -/
theorem c10_witness :
    fUpper ∈ candidateFiles demoFiles ∧ fMixed ∈ candidateFiles demoFiles ∧
    fTxt ∉ candidateFiles demoFiles :=
  ⟨(c10_candidate_enumeration true demoFiles strTotal false fUpper).1.mpr
      ⟨by decide, Or.inl (by decide)⟩,
   by decide, by decide⟩
